import Mathlib

/-!
Verification development for the SIMS cross-tab synchronisation subsystem.

The transport (`SyncService` in `src/services/syncService.ts`) keeps a
`Map<string, Set<() => void>>` of listeners, three delivery lanes
(BroadcastChannel, `storage` events, a same-context CustomEvent), a periodic
refresh ticker and a last-sync timestamp.  The consumer binding
(`useSyncedData.ts`) fetches data and guards state writes with an
`isMounted` flag.

Callbacks are modelled by identity as natural numbers.  The JavaScript
`Map`/`Set` pair backing the listener registry is modelled as an
insertion-ordered association list of insertion-ordered duplicate-free
buckets, exactly mirroring `Map`/`Set` iteration and update semantics.
-/



namespace SyncService

/-- The three `SyncEventType` string constants of the source. -/
inductive SyncEventType : Type
  | storageUpdate
  | dataRefresh
  | forceSyncEvt
  deriving DecidableEq, Repr

/-- `SyncMessage { type, key?, timestamp }` from the source. -/
structure SyncMessage : Type where
  type : SyncEventType
  key : Option String
  timestamp : Nat
  deriving DecidableEq, Repr

/-- The listener registry `Map<string, Set<() => void>>`: an insertion-ordered
association list from watch keys to insertion-ordered buckets of callback
identities. -/
abbrev Registry := List (String × List Nat)

/-- `this.listeners.get(key)`: first (unique, for well-formed registries)
bucket stored under `k`. -/
def getBucket : Registry → String → Option (List Nat)
  | [], _ => none
  | p :: rest, k => if p.1 = k then some p.2 else getBucket rest k

/-- The registry mutation performed by `subscribe(key, callback)`:
`if (!has(key)) set(key, new Set()); get(key)!.add(callback)`.
A `Map` update keeps the entry position; `Set.add` appends iff absent. -/
def regAdd : Registry → String → Nat → Registry
  | [], k, cb => [(k, [cb])]
  | p :: rest, k, cb =>
    if p.1 = k then (p.1, if cb ∈ p.2 then p.2 else p.2 ++ [cb]) :: rest
    else p :: regAdd rest k cb

/-- The registry mutation performed by the revocation closure returned by
`subscribe`: `keyListeners.delete(callback); if (size === 0) delete key`. -/
def regRemove : Registry → String → Nat → Registry
  | [], _, _ => []
  | p :: rest, k, cb =>
    if p.1 = k then
      (if p.2.erase cb = [] then rest else (p.1, p.2.erase cb) :: rest)
    else p :: regRemove rest k cb

/-- Well-formedness of the registry model, automatic for the JavaScript
`Map`/`Set` pair: keys are unique, buckets are duplicate-free and
(by the no-empty-bucket maintenance in the revocation closure) nonempty. -/
def RegistryWF (reg : Registry) : Prop :=
  (reg.map (·.1)).Nodup ∧ ∀ p ∈ reg, p.2.Nodup ∧ p.2 ≠ []

instance (reg : Registry) : Decidable (RegistryWF reg) := by
  unfold RegistryWF; infer_instance

/-- Boolean form of the no-empty-bucket invariant. -/
def noEmptyBuckets (reg : Registry) : Bool :=
  reg.all (fun p => !p.2.isEmpty)

/-- Console output entries produced by the service (`console.warn`). -/
inductive LogEntry : Type
  | warnAlreadyStarted
  | warnChannelUnavailable
  deriving DecidableEq, Repr

/-- The `detail` payload of a `storage-update` CustomEvent, as inspected by
the custom event listener (`detail?.type`, else `detail?.key`). -/
inductive EventDetail : Type
  | typed (msg : SyncMessage)
  | keyed (k : String)
  | other
  deriving DecidableEq, Repr

/-- The `SyncService` instance together with the browser facilities it
touches.  Service fields mirror the class fields of the source; the
environment fields model the window: active interval timers, the
BroadcastChannel outbox to other contexts, the callbacks invoked so far
(in invocation order), the `sync-time-update` signals dispatched, and the
console.  `channelSupported`/`channelConstructs` model
`typeof BroadcastChannel !== 'undefined'` and constructor success; they are
environment constants never altered by an operation.  Every `Date.now()`
read inside a single operation is modelled by that operation's single time
argument. -/
structure World : Type where
  channel : Bool
  listeners : Registry
  refreshInterval : Option Nat
  lastSyncTime : Nat
  storageListener : Bool
  customEventListener : Bool
  isStarted : Bool
  channelSupported : Bool
  channelConstructs : Bool
  activeTimers : List Nat
  nextTimerId : Nat
  channelOut : List SyncMessage
  firedCallbacks : List Nat
  syncTimeSignals : List Nat
  consoleLog : List LogEntry
  deriving DecidableEq, Repr

/-- The bucket stored under `k`, the empty list when `k` is unmapped. -/
def bucketOf (reg : Registry) (k : String) : List Nat :=
  (getBucket reg k).getD []

/-- The callback identities invoked, in order, by one `notifyListeners(key)`
pass (callbacks treated as opaque): the key's bucket, then — only when
`key !== '*'` — the wildcard bucket. -/
def notifyListenersList (reg : Registry) (k : String) : List Nat :=
  bucketOf reg k ++ (if k = "*" then [] else bucketOf reg "*")

/-- `updateSyncTime()`: `lastSyncTime = Date.now()` and dispatch of the
`sync-time-update` CustomEvent. -/
def updateSyncTime (t : Nat) (w : World) : World :=
  { w with lastSyncTime := t, syncTimeSignals := w.syncTimeSignals ++ [t] }

/-- `notifyListeners(key)` on the world: appends the invoked callbacks to
the invocation log. -/
def notifyListeners (k : String) (w : World) : World :=
  { w with firedCallbacks := w.firedCallbacks ++ notifyListenersList w.listeners k }

/-- `handleSyncMessage(message)`: update the sync time, then dispatch by
message type; `t` is the local `Date.now()` of this processing step.  The
`if (message.key)` guards are JavaScript truthiness tests, so a present but
empty-string key counts as absent. -/
def handleSyncMessage (t : Nat) (msg : SyncMessage) (w : World) : World :=
  let w1 := updateSyncTime t w
  match msg.type with
  | .storageUpdate =>
    match msg.key with
    | some k => if k = "" then w1 else notifyListeners k w1
    | none => w1
  | .dataRefresh => notifyListeners "*" w1
  | .forceSyncEvt =>
    match msg.key with
    | some k => if k = "" then notifyListeners "*" w1 else notifyListeners k w1
    | none => notifyListeners "*" w1

/-- The custom event listener installed by `setupStorageListener`: runs only
while installed; a detail with a `type` goes to `handleSyncMessage`, a detail
with only a `key` notifies and updates the sync time.  `detail?.key` is a
truthiness test: an empty-string key is falsy and does nothing. -/
def customEventHandler (t : Nat) (d : EventDetail) (w : World) : World :=
  if w.customEventListener then
    match d with
    | .typed msg => handleSyncMessage t msg w
    | .keyed k => if k = "" then w else updateSyncTime t (notifyListeners k w)
    | .other => w
  else w

/-- `broadcast(message)`: stamp the timestamp, post on the channel when
open, synchronously dispatch the same-context CustomEvent (handled by the
custom event listener iff installed), then update the sync time. -/
def broadcast (ty : SyncEventType) (k : Option String) (t : Nat) (w : World) :
    World :=
  let msg : SyncMessage := ⟨ty, k, t⟩
  let w1 := if w.channel then { w with channelOut := w.channelOut ++ [msg] } else w
  let w2 := customEventHandler t (EventDetail.typed msg) w1
  updateSyncTime t w2

/-- `notifyUpdate(key)`. -/
def notifyUpdate (k : String) (t : Nat) (w : World) : World :=
  broadcast .storageUpdate (some k) t w

/-- `forceSync(key?)`. -/
def forceSync (k : Option String) (t : Nat) (w : World) : World :=
  broadcast .forceSyncEvt k t w

/-- `initializeBroadcastChannel()`: open the channel when the constructor is
available and succeeds; a constructor failure is caught and logged. -/
def initializeBroadcastChannel (w : World) : World :=
  if w.channelSupported then
    if w.channelConstructs then { w with channel := true }
    else { w with consoleLog := w.consoleLog ++ [LogEntry.warnChannelUnavailable] }
  else w

/-- `setupStorageListener()`: installs the storage listener and the custom
event listener. -/
def setupStorageListener (w : World) : World :=
  { w with storageListener := true, customEventListener := true }

/-- `startAutoRefresh()`: `window.setInterval` allocates a fresh timer id. -/
def startAutoRefresh (w : World) : World :=
  { w with refreshInterval := some w.nextTimerId,
           activeTimers := w.activeTimers ++ [w.nextTimerId],
           nextTimerId := w.nextTimerId + 1 }

/-- `start()`. -/
def start (w : World) : World :=
  if w.isStarted then
    { w with consoleLog := w.consoleLog ++ [LogEntry.warnAlreadyStarted] }
  else
    startAutoRefresh (setupStorageListener
      (initializeBroadcastChannel { w with isStarted := true }))

/-- `destroy()`. -/
def destroy (w : World) : World :=
  if w.isStarted then
    let w1 := match w.refreshInterval with
      | some id =>
        { w with refreshInterval := none, activeTimers := w.activeTimers.erase id }
      | none => w
    let w2 := if w1.channel then { w1 with channel := false } else w1
    { w2 with storageListener := false, customEventListener := false,
              listeners := [], isStarted := false }
  else w

/-- `stop()` delegates to `destroy()`. -/
def stop (w : World) : World := destroy w

/-- `subscribe(key, callback)` (registry effect; the returned handle is
modelled by `revoke`). -/
def subscribe (k : String) (cb : Nat) (w : World) : World :=
  { w with listeners := regAdd w.listeners k cb }

/-- Calling the revocation handle returned by `subscribe(key, callback)`. -/
def revoke (k : String) (cb : Nat) (w : World) : World :=
  { w with listeners := regRemove w.listeners k cb }

/-- A browser `storage` event: handled only while the storage listener is
installed, and only when the event carries a truthy key — `if (e.key)` is a
JavaScript truthiness test, so a null or empty-string key is ignored. -/
def storageEvent (k : Option String) (t : Nat) (w : World) : World :=
  if w.storageListener then
    match k with
    | some key =>
      if key = "" then w else updateSyncTime t (notifyListeners key w)
    | none => w
  else w

/-- An incoming BroadcastChannel message: `channel.onmessage` exists only
while the channel is open. -/
def recvChannelMessage (msg : SyncMessage) (t : Nat) (w : World) : World :=
  if w.channel then handleSyncMessage t msg w else w

/-- One interval boundary elapsing: every active interval timer fires once,
each firing running the ticker body `broadcast({type: 'data-refresh'})`. -/
def tick (t : Nat) (w : World) : World :=
  w.activeTimers.foldl (fun acc _ => broadcast .dataRefresh none t acc) w

/-- `getLastSyncTime()`. -/
def getLastSyncTime (w : World) : Nat := w.lastSyncTime

/-- One externally triggered operation on the transport.  Operations that
read `Date.now()` carry the value it returns. -/
inductive Op : Type
  | start
  | stop
  | subscribe (k : String) (cb : Nat)
  | revoke (k : String) (cb : Nat)
  | notifyUpdate (k : String) (t : Nat)
  | forceSync (k : Option String) (t : Nat)
  | tick (t : Nat)
  | recvChannel (msg : SyncMessage) (t : Nat)
  | storageEvt (k : Option String) (t : Nat)
  | customEvt (d : EventDetail) (t : Nat)
  deriving DecidableEq, Repr

/-- Interpretation of one operation. -/
def step (op : Op) (w : World) : World :=
  match op with
  | .start => start w
  | .stop => stop w
  | .subscribe k cb => subscribe k cb w
  | .revoke k cb => revoke k cb w
  | .notifyUpdate k t => notifyUpdate k t w
  | .forceSync k t => forceSync k t w
  | .tick t => tick t w
  | .recvChannel msg t => recvChannelMessage msg t w
  | .storageEvt k t => storageEvent k t w
  | .customEvt d t => customEventHandler t d w

/-- Running a trace of operations. -/
def run (w : World) (ops : List Op) : World :=
  ops.foldl (fun acc op => step op acc) w

/-- The freshly constructed service (`new SyncService()` with
`lastSyncTime = Date.now()` = `t0`) in a pristine window. -/
def initialWorld (t0 : Nat) (cs cc : Bool) : World :=
  { channel := false, listeners := [], refreshInterval := none,
    lastSyncTime := t0, storageListener := false, customEventListener := false,
    isStarted := false, channelSupported := cs, channelConstructs := cc,
    activeTimers := [], nextTimerId := 0, channelOut := [],
    firedCallbacks := [], syncTimeSignals := [], consoleLog := [] }

/-- States reachable from a freshly constructed service by some trace. -/
def Reachable (w : World) : Prop :=
  ∃ t0 cs cc ops, run (initialWorld t0 cs cc) ops = w

/-- The fields constrained by the lifecycle/registry invariant: everything a
dispatch pass leaves untouched. -/
def coreFields (w : World) :
    Registry × Bool × Bool × Option Nat × List Nat × Bool × Bool :=
  (w.listeners, w.storageListener, w.customEventListener, w.refreshInterval,
   w.activeTimers, w.channel, w.isStarted)

/-- Lifecycle invariant of the service: while started, both window listeners
are installed and exactly one interval timer is active, the one recorded in
`refreshInterval`; while stopped, no listener, no timer, no channel. -/
def LifecycleInv (w : World) : Prop :=
  (w.isStarted = true → w.storageListener = true ∧ w.customEventListener = true ∧
    ∃ i, w.refreshInterval = some i ∧ w.activeTimers = [i]) ∧
  (w.isStarted = false → w.storageListener = false ∧
    w.customEventListener = false ∧ w.refreshInterval = none ∧
    w.activeTimers = [] ∧ w.channel = false)

/-- Reachability invariant: lifecycle well-formedness plus registry
well-formedness. -/
def Inv (w : World) : Prop := LifecycleInv w ∧ RegistryWF w.listeners

end SyncService

/-- A stopped world with one live subscription, for witnesses. -/
def subscribedWorld : SyncService.World :=
  SyncService.run (SyncService.initialWorld 0 true true)
    [SyncService.Op.subscribe "a" 0]

/-- A started world, for witnesses. -/
def startedWorld : SyncService.World :=
  SyncService.run (SyncService.initialWorld 0 true true) [SyncService.Op.start]

namespace SyncService

/-- The callback identities one `handleSyncMessage` pass invokes, in order:
the source's `switch` over the message type, with the `if (message.key)`
truthiness guards (an empty-string key counts as absent). -/
def dispatchList (reg : Registry) (msg : SyncMessage) : List Nat :=
  match msg.type with
  | .storageUpdate =>
    match msg.key with
    | some k => if k = "" then [] else notifyListenersList reg k
    | none => []
  | .dataRefresh => notifyListenersList reg "*"
  | .forceSyncEvt =>
    match msg.key with
    | some k =>
      if k = "" then notifyListenersList reg "*" else notifyListenersList reg k
    | none => notifyListenersList reg "*"

/-- The per-callback invocation count stated by the (amended) dispatch
rule: a `storage-update`/`force-sync` carrying a truthy key (present and
nonempty — the code's `if (message.key)` treats the empty string as absent)
invokes a callback once per bucket it occupies among the key's bucket and —
when the key is not the wildcard — the wildcard bucket; a `storage-update`
without a truthy key invokes nobody; `data-refresh` and `force-sync`
without a truthy key invoke exactly the wildcard bucket, each member
once. -/
def expectedCount (reg : Registry) (msg : SyncMessage) (cb : Nat) : Nat :=
  match msg.type, msg.key with
  | .storageUpdate, some k =>
    if k = "" then 0
    else (if cb ∈ bucketOf reg k then 1 else 0) +
      (if k ≠ "*" ∧ cb ∈ bucketOf reg "*" then 1 else 0)
  | .storageUpdate, none => 0
  | .dataRefresh, _ => if cb ∈ bucketOf reg "*" then 1 else 0
  | .forceSyncEvt, some k =>
    if k = "" then (if cb ∈ bucketOf reg "*" then 1 else 0)
    else (if cb ∈ bucketOf reg k then 1 else 0) +
      (if k ≠ "*" ∧ cb ∈ bucketOf reg "*" then 1 else 0)
  | .forceSyncEvt, none => if cb ∈ bucketOf reg "*" then 1 else 0

/-- The `Date.now()` value an operation observes, when it observes one. -/
def Op.time : Op → Option Nat
  | .start => none
  | .stop => none
  | .subscribe _ _ => none
  | .revoke _ _ => none
  | .notifyUpdate _ t => some t
  | .forceSync _ t => some t
  | .tick t => some t
  | .recvChannel _ t => some t
  | .storageEvt _ t => some t
  | .customEvt _ t => some t

end SyncService

namespace JsSetModel

/-- A JavaScript `Set` of callbacks during iteration: the insertion-ordered
entry list, with deleted entries kept as empty slots, as in the ES
ordered-set iteration protocol that `Set.prototype.forEach` follows. -/
abbrev JsSet := List (Option Nat)

/-- `Set.prototype.add`: appends iff the value is absent. -/
def jsAdd (s : JsSet) (c : Nat) : JsSet :=
  if some c ∈ s then s else s ++ [some c]

/-- `Set.prototype.delete`: clears the value's slot. -/
def jsDelete (s : JsSet) (c : Nat) : JsSet :=
  s.map (fun x => if x = some c then none else x)

/-- What a callback does, during dispatch, to the very bucket being
iterated: subscribe another callback under the same key, unsubscribe one,
or neither. -/
inductive CbEffect : Type
  | addCb (c : Nat)
  | delCb (c : Nat)
  | pureCb
  deriving DecidableEq, Repr

def applyEffect : CbEffect → JsSet → JsSet
  | .addCb c, s => jsAdd s c
  | .delCb c, s => jsDelete s c
  | .pureCb, s => s

/-- `keyListeners.forEach(callback => callback())` as the source runs it:
iteration over the LIVE set.  The cursor walks the entry list; a visited
callback's effect mutates the same set before the cursor advances, so
entries appended during the pass are visited and entries cleared before
being reached are skipped.  `fuel` bounds the walk; any value at least the
final entry-list length is exact. -/
def forEachLive (eff : Nat → CbEffect) : Nat → Nat → JsSet → List Nat
  | 0, _, _ => []
  | fuel + 1, i, s =>
    match s[i]? with
    | none => []
    | some none => forEachLive eff fuel (i + 1) s
    | some (some c) => c :: forEachLive eff fuel (i + 1) (applyEffect (eff c) s)

/-- The dispatch pass the specification requires: iterate a snapshot taken
before the first callback runs, so reentrant mutation cannot change which
callbacks the pass invokes. -/
def forEachSnapshot (s : JsSet) : List Nat := s.filterMap id

end JsSetModel

namespace UseSyncedData

/-- The `useSyncedData` state a fetch can write — `data` and `loading` —
plus a count of `console.error` calls, modelling the log. -/
structure HookState (T : Type) : Type where
  data : Option T
  loading : Bool
  errorsLogged : Nat

/-- The code after `await fetcher()` settles: the `try`'s `setData`, the
`catch`'s `console.error`, and the `finally`'s `setLoading(false)`, each
guarded by the activity flag as it reads at resolution time.  A rejection
is `Except.error`; the function always returns a state — no error
propagates to the caller. -/
def doFetchResolve {T : Type} (isMounted : Bool) (st : HookState T)
    (result : Except Unit T) : HookState T :=
  match result with
  | .ok v =>
    let st1 := if isMounted then { st with data := some v } else st
    if isMounted then { st1 with loading := false } else st1
  | .error _ =>
    let st1 :=
      if isMounted then { st with errorsLogged := st.errorsLogged + 1 } else st
    if isMounted then { st1 with loading := false } else st1

/-- One full `doFetch()` call: the early `if (!isMounted) return`, the
conditional `setLoading(true)` when no data is held yet, then the
resolution phase; the activity flag may change across the `await`, hence
the two flag readings. -/
def doFetch {T : Type} (mountedAtStart mountedAtResolve : Bool)
    (st : HookState T) (result : Except Unit T) : HookState T :=
  if mountedAtStart then
    doFetchResolve mountedAtResolve
      (if st.data.isNone then { st with loading := true } else st) result
  else st

end UseSyncedData

namespace SyncService

theorem noEmptyBuckets_of_wf {reg : Registry} (h : RegistryWF reg) :
    noEmptyBuckets reg = true := by
  rcases h with ⟨-, h2⟩
  simp only [noEmptyBuckets, List.all_eq_true]
  intro p hp
  have := (h2 p hp).2
  simpa [List.isEmpty_iff] using this

theorem regAdd_mem_keys {reg : Registry} {k k' : String} {cb : Nat}
    (h : k' ∈ (regAdd reg k cb).map (·.1)) :
    k' ∈ reg.map (·.1) ∨ k' = k := by
  induction reg with
  | nil => simp [regAdd] at h; simp [h]
  | cons p rest ih =>
    by_cases hk : p.1 = k
    · simp only [regAdd, if_pos hk] at h
      simp only [List.map_cons, List.mem_cons] at h ⊢
      rcases h with h | h
      · exact Or.inl (Or.inl h)
      · exact Or.inl (Or.inr h)
    · simp only [regAdd, if_neg hk] at h
      simp only [List.map_cons, List.mem_cons] at h ⊢
      rcases h with h | h
      · exact Or.inl (Or.inl h)
      · rcases ih h with h' | h'
        · exact Or.inl (Or.inr h')
        · exact Or.inr h'

theorem regAdd_wf {reg : Registry} {k : String} {cb : Nat}
    (h : RegistryWF reg) : RegistryWF (regAdd reg k cb) := by
  induction reg with
  | nil =>
    constructor
    · simp [regAdd]
    · intro p hp
      simp [regAdd] at hp
      subst hp
      simp
  | cons p rest ih =>
    rcases h with ⟨hkeys, hbuckets⟩
    simp only [List.map_cons, List.nodup_cons] at hkeys
    rcases hkeys with ⟨hnotmem, hrest⟩
    by_cases hk : p.1 = k
    · refine ⟨?_, ?_⟩
      · simp only [regAdd, if_pos hk, List.map_cons, List.nodup_cons]
        exact ⟨hnotmem, hrest⟩
      · intro q hq
        simp only [regAdd, if_pos hk, List.mem_cons] at hq
        rcases hq with hq | hq
        · subst hq
          have hp := hbuckets p (List.mem_cons_self _ _)
          by_cases hmem : cb ∈ p.2
          · simpa [hmem] using hp
          · refine ⟨?_, ?_⟩
            · simp only [if_neg hmem]
              simp [List.nodup_append, hp.1, hmem]
            · simp [if_neg hmem]
        · exact hbuckets q (List.mem_cons_of_mem _ hq)
    · have hwfrest : RegistryWF rest :=
        ⟨hrest, fun q hq => hbuckets q (List.mem_cons_of_mem _ hq)⟩
      have ihw := ih hwfrest
      refine ⟨?_, ?_⟩
      · simp only [regAdd, if_neg hk, List.map_cons, List.nodup_cons]
        refine ⟨?_, ihw.1⟩
        intro hc
        rcases regAdd_mem_keys hc with hc' | hc'
        · exact hnotmem hc'
        · exact hk hc'
      · intro q hq
        simp only [regAdd, if_neg hk, List.mem_cons] at hq
        rcases hq with hq | hq
        · subst hq
          exact hbuckets q (List.mem_cons_self _ _)
        · exact ihw.2 q hq

theorem regRemove_mem_keys {reg : Registry} {k k' : String} {cb : Nat}
    (h : k' ∈ (regRemove reg k cb).map (·.1)) :
    k' ∈ reg.map (·.1) := by
  induction reg with
  | nil => simp [regRemove] at h
  | cons p rest ih =>
    by_cases hk : p.1 = k
    · simp only [regRemove, if_pos hk] at h
      by_cases he : p.2.erase cb = []
      · simp only [if_pos he] at h
        simp only [List.map_cons, List.mem_cons]
        exact Or.inr h
      · simp only [if_neg he, List.map_cons, List.mem_cons] at h
        simp only [List.map_cons, List.mem_cons]
        exact h
    · simp only [regRemove, if_neg hk, List.map_cons, List.mem_cons] at h
      simp only [List.map_cons, List.mem_cons]
      rcases h with h | h
      · exact Or.inl h
      · exact Or.inr (ih h)

theorem regRemove_wf {reg : Registry} {k : String} {cb : Nat}
    (h : RegistryWF reg) : RegistryWF (regRemove reg k cb) := by
  induction reg with
  | nil => simpa [regRemove] using h
  | cons p rest ih =>
    rcases h with ⟨hkeys, hbuckets⟩
    simp only [List.map_cons, List.nodup_cons] at hkeys
    rcases hkeys with ⟨hnotmem, hrest⟩
    have hwfrest : RegistryWF rest :=
      ⟨hrest, fun q hq => hbuckets q (List.mem_cons_of_mem _ hq)⟩
    by_cases hk : p.1 = k
    · by_cases he : p.2.erase cb = []
      · simp only [regRemove, if_pos hk, if_pos he]
        exact hwfrest
      · refine ⟨?_, ?_⟩
        · simp only [regRemove, if_pos hk, if_neg he, List.map_cons,
            List.nodup_cons]
          exact ⟨hnotmem, hrest⟩
        · intro q hq
          simp only [regRemove, if_pos hk, if_neg he, List.mem_cons] at hq
          rcases hq with hq | hq
          · subst hq
            have hp := hbuckets p (List.mem_cons_self _ _)
            exact ⟨hp.1.erase cb, he⟩
          · exact hwfrest.2 q hq
    · have ihw := ih hwfrest
      refine ⟨?_, ?_⟩
      · simp only [regRemove, if_neg hk, List.map_cons, List.nodup_cons]
        exact ⟨fun hc => hnotmem (regRemove_mem_keys hc), ihw.1⟩
      · intro q hq
        simp only [regRemove, if_neg hk, List.mem_cons] at hq
        rcases hq with hq | hq
        · subst hq
          exact hbuckets q (List.mem_cons_self _ _)
        · exact ihw.2 q hq

theorem regRemove_of_key_absent {reg : Registry} {k : String} {cb : Nat}
    (h : k ∉ reg.map (·.1)) : regRemove reg k cb = reg := by
  induction reg with
  | nil => rfl
  | cons p rest ih =>
    simp only [List.map_cons, List.mem_cons] at h
    push_neg at h
    have hk : ¬ p.1 = k := fun hc => h.1 hc.symm
    simp [regRemove, if_neg hk, ih h.2]

theorem run_nil (w : World) : run w [] = w := rfl

theorem run_cons (w : World) (op : Op) (ops : List Op) :
    run w (op :: ops) = run (step op w) ops := rfl

theorem run_append (w : World) (l₁ l₂ : List Op) :
    run w (l₁ ++ l₂) = run (run w l₁) l₂ :=
  List.foldl_append ..

theorem coreFields_updateSyncTime (t : Nat) (w : World) :
    coreFields (updateSyncTime t w) = coreFields w := rfl

theorem coreFields_notifyListeners (k : String) (w : World) :
    coreFields (notifyListeners k w) = coreFields w := rfl

theorem coreFields_handleSyncMessage (t : Nat) (msg : SyncMessage) (w : World) :
    coreFields (handleSyncMessage t msg w) = coreFields w := by
  rcases msg with ⟨ty, k, ts⟩
  cases ty <;> cases k <;>
    simp [handleSyncMessage, coreFields_updateSyncTime,
      coreFields_notifyListeners] <;>
    split_ifs <;>
    simp [coreFields_updateSyncTime, coreFields_notifyListeners]

theorem coreFields_customEventHandler (t : Nat) (d : EventDetail) (w : World) :
    coreFields (customEventHandler t d w) = coreFields w := by
  by_cases h : w.customEventListener = true
  · cases d with
    | typed msg => simp [customEventHandler, h, coreFields_handleSyncMessage]
    | keyed k =>
      by_cases hke : k = "" <;>
        simp [customEventHandler, h, hke, coreFields_updateSyncTime,
          coreFields_notifyListeners]
    | other => simp [customEventHandler, h]
  · simp [customEventHandler, h]

theorem coreFields_broadcast (ty : SyncEventType) (k : Option String) (t : Nat)
    (w : World) : coreFields (broadcast ty k t w) = coreFields w := by
  by_cases h : w.channel = true
  · simp only [broadcast]
    rw [if_pos h, coreFields_updateSyncTime, coreFields_customEventHandler]
    rfl
  · simp only [broadcast]
    rw [if_neg h, coreFields_updateSyncTime, coreFields_customEventHandler]

theorem coreFields_refresh_foldl (t : Nat) (l : List Nat) (w : World) :
    coreFields (l.foldl (fun acc _ => broadcast .dataRefresh none t acc) w) =
      coreFields w := by
  induction l generalizing w with
  | nil => rfl
  | cons a l ih => rw [List.foldl_cons, ih, coreFields_broadcast]

theorem coreFields_tick (t : Nat) (w : World) :
    coreFields (tick t w) = coreFields w :=
  coreFields_refresh_foldl t w.activeTimers w

theorem coreFields_storageEvent (k : Option String) (t : Nat) (w : World) :
    coreFields (storageEvent k t w) = coreFields w := by
  by_cases h : w.storageListener = true
  · cases k with
    | some key =>
      by_cases hke : key = "" <;>
        simp [storageEvent, h, hke, coreFields_updateSyncTime,
          coreFields_notifyListeners]
    | none => simp [storageEvent, h]
  · simp [storageEvent, h]

theorem coreFields_recvChannelMessage (msg : SyncMessage) (t : Nat) (w : World) :
    coreFields (recvChannelMessage msg t w) = coreFields w := by
  by_cases h : w.channel = true <;>
    simp [recvChannelMessage, h, coreFields_handleSyncMessage]

theorem Inv_of_coreFields_eq {w w' : World} (h : coreFields w' = coreFields w)
    (hi : Inv w) : Inv w' := by
  simp only [coreFields, Prod.mk.injEq] at h
  obtain ⟨h1, h2, h3, h4, h5, h6, h7⟩ := h
  unfold Inv LifecycleInv at hi ⊢
  rw [h1, h2, h3, h4, h5, h6, h7]
  exact hi

theorem Inv_step (op : Op) (w : World) (h : Inv w) : Inv (step op w) := by
  cases op with
  | start =>
    by_cases hs : w.isStarted = true
    · simp only [step, start]
      rw [if_pos hs]
      refine ⟨⟨fun _ => h.1.1 hs, fun hc => ?_⟩, h.2⟩
      have h2 : w.isStarted = false := hc
      rw [hs] at h2
      simp at h2
    · simp only [Bool.not_eq_true] at hs
      obtain ⟨hsl, hcel, hri, hat, hch⟩ := h.1.2 hs
      simp only [step, start]
      rw [if_neg (by simp [hs])]
      simp only [startAutoRefresh, setupStorageListener,
        initializeBroadcastChannel]
      split_ifs with hcs hcc <;>
        exact ⟨⟨fun _ => ⟨rfl, rfl, ⟨w.nextTimerId, rfl, by simp [hat]⟩⟩,
          fun hc => by simp at hc⟩, h.2⟩
  | stop =>
    by_cases hs : w.isStarted = true
    · obtain ⟨hsl, hcel, i, hri, hat⟩ := h.1.1 hs
      simp only [step, stop, destroy]
      rw [if_pos hs]
      simp only [hri]
      split_ifs with hch
      · exact ⟨⟨fun hc => by simp at hc,
          fun _ => ⟨rfl, rfl, rfl, by simp [hat], rfl⟩⟩, by simp [RegistryWF]⟩
      · simp only [Bool.not_eq_true] at hch
        exact ⟨⟨fun hc => by simp at hc,
          fun _ => ⟨rfl, rfl, rfl, by simp [hat], hch⟩⟩, by simp [RegistryWF]⟩
    · simp only [step, stop, destroy]
      rw [if_neg hs]
      exact h
  | subscribe k cb => exact ⟨h.1, regAdd_wf h.2⟩
  | revoke k cb => exact ⟨h.1, regRemove_wf h.2⟩
  | notifyUpdate k t => exact Inv_of_coreFields_eq (coreFields_broadcast ..) h
  | forceSync k t => exact Inv_of_coreFields_eq (coreFields_broadcast ..) h
  | tick t => exact Inv_of_coreFields_eq (coreFields_tick ..) h
  | recvChannel msg t =>
    exact Inv_of_coreFields_eq (coreFields_recvChannelMessage ..) h
  | storageEvt k t => exact Inv_of_coreFields_eq (coreFields_storageEvent ..) h
  | customEvt d t =>
    exact Inv_of_coreFields_eq (coreFields_customEventHandler ..) h

theorem Inv_run (w : World) (ops : List Op) (h : Inv w) : Inv (run w ops) := by
  induction ops generalizing w with
  | nil => exact h
  | cons op ops ih => exact ih (step op w) (Inv_step op w h)

theorem Inv_initial (t0 : Nat) (cs cc : Bool) : Inv (initialWorld t0 cs cc) :=
  ⟨⟨fun hc => by simp [initialWorld] at hc,
    fun _ => ⟨rfl, rfl, rfl, rfl, rfl⟩⟩, by simp [initialWorld, RegistryWF]⟩

theorem Reachable_inv {w : World} (h : Reachable w) : Inv w := by
  obtain ⟨t0, cs, cc, ops, rfl⟩ := h
  exact Inv_run _ _ (Inv_initial t0 cs cc)

theorem customEventHandler_off {w : World} (h : w.customEventListener = false)
    (t : Nat) (d : EventDetail) : customEventHandler t d w = w := by
  simp only [customEventHandler]
  rw [if_neg (by simp [h])]

theorem broadcast_stopped {w : World} (hch : w.channel = false)
    (hcel : w.customEventListener = false) (ty : SyncEventType)
    (k : Option String) (t : Nat) : broadcast ty k t w = updateSyncTime t w := by
  simp only [broadcast]
  rw [if_neg (show ¬(w.channel = true) by simp [hch]),
    customEventHandler_off hcel]

theorem destroy_not_started {w : World} (hs : w.isStarted = false) :
    destroy w = w := by
  simp only [destroy]
  rw [if_neg (by simp [hs])]

theorem destroy_started {w : World} (hs : w.isStarted = true) {i : Nat}
    (hri : w.refreshInterval = some i) :
    destroy w = { w with
      refreshInterval := none,
      activeTimers := w.activeTimers.erase i, channel := false,
      storageListener := false, customEventListener := false,
      listeners := [], isStarted := false } := by
  simp only [destroy]
  rw [if_pos hs]
  simp only [hri]
  split_ifs with hch
  · rfl
  · simp only [Bool.not_eq_true] at hch
    simp [hch]

theorem start_not_started {w : World} (hs : w.isStarted = false) :
    start w = startAutoRefresh (setupStorageListener
      (initializeBroadcastChannel { w with isStarted := true })) := by
  simp only [start]
  rw [if_neg (by simp [hs])]

theorem start_fields {w : World} (hs : w.isStarted = false)
    (hch : w.channel = false) :
    (start w).isStarted = true ∧ (start w).listeners = w.listeners ∧
    (start w).storageListener = true ∧ (start w).customEventListener = true ∧
    (start w).refreshInterval = some w.nextTimerId ∧
    (start w).activeTimers = w.activeTimers ++ [w.nextTimerId] ∧
    (start w).channel = (w.channelSupported && w.channelConstructs) := by
  rw [start_not_started hs]
  simp only [startAutoRefresh, setupStorageListener, initializeBroadcastChannel]
  split_ifs with hcs hcc
  · simp [hcs, hcc]
  · simp only [Bool.not_eq_true] at hcc
    simp [hcs, hcc, hch]
  · simp only [Bool.not_eq_true] at hcs
    simp [hcs, hch]

end SyncService

open SyncService in
/-- C6: in every reachable state of the listener registry — after any trace
of subscribe, revoke, dispatch and stop operations — no key is mapped to an
empty callback set. -/
theorem claim_C6_no_empty_buckets (w : World) (h : Reachable w) :
    noEmptyBuckets w.listeners = true :=
  noEmptyBuckets_of_wf (Reachable_inv h).2

open SyncService in
/-- Witness for `claim_C6_no_empty_buckets`: a trace that empties the bucket
of `"a"` leaves no empty bucket behind. -/
theorem claim_C6_no_empty_buckets_witness :
    noEmptyBuckets (run (initialWorld 0 true true)
      [Op.subscribe "a" 0, Op.subscribe "a" 1, Op.subscribe "*" 2,
       Op.revoke "a" 0, Op.revoke "a" 1]).listeners = true :=
  claim_C6_no_empty_buckets _
    ⟨0, true, true,
      [Op.subscribe "a" 0, Op.subscribe "a" 1, Op.subscribe "*" 2,
       Op.revoke "a" 0, Op.revoke "a" 1], rfl⟩

open SyncService in
/-- C10: on a transport in the Stopped state (never started, or stopped),
`notifyUpdate`/`forceSync` still stamp the timestamp: the last-sync time
becomes the current time and exactly one `sync-time-update` signal is
emitted — but no locally subscribed callback is invoked (and nothing is
posted on the channel), because same-context dispatch goes through the
custom event listener that only `start()` installs. -/
theorem claim_C10_stopped_broadcast (w : World) (hr : Reachable w)
    (hs : w.isStarted = false) (k : String) (k2 : Option String) (t : Nat) :
    (notifyUpdate k t w).firedCallbacks = w.firedCallbacks ∧
    getLastSyncTime (notifyUpdate k t w) = t ∧
    (notifyUpdate k t w).syncTimeSignals = w.syncTimeSignals ++ [t] ∧
    (notifyUpdate k t w).channelOut = w.channelOut ∧
    (forceSync k2 t w).firedCallbacks = w.firedCallbacks ∧
    getLastSyncTime (forceSync k2 t w) = t ∧
    (forceSync k2 t w).syncTimeSignals = w.syncTimeSignals ++ [t] ∧
    (forceSync k2 t w).channelOut = w.channelOut := by
  obtain ⟨hlife, -⟩ := Reachable_inv hr
  obtain ⟨-, hcel, -, -, hch⟩ := hlife.2 hs
  rw [notifyUpdate, forceSync, broadcast_stopped hch hcel,
    broadcast_stopped hch hcel]
  exact ⟨rfl, rfl, rfl, rfl, rfl, rfl, rfl, rfl⟩

open SyncService in
/-- Witness for `claim_C10_stopped_broadcast`: a never-started transport
with a subscriber under `"a"` fires nothing on `notifyUpdate "a"`. -/
theorem claim_C10_stopped_broadcast_witness :
    (notifyUpdate "a" 3 subscribedWorld).firedCallbacks =
      subscribedWorld.firedCallbacks ∧
    getLastSyncTime (notifyUpdate "a" 3 subscribedWorld) = 3 ∧
    (notifyUpdate "a" 3 subscribedWorld).syncTimeSignals =
      subscribedWorld.syncTimeSignals ++ [3] ∧
    (notifyUpdate "a" 3 subscribedWorld).channelOut =
      subscribedWorld.channelOut ∧
    (forceSync none 3 subscribedWorld).firedCallbacks =
      subscribedWorld.firedCallbacks ∧
    getLastSyncTime (forceSync none 3 subscribedWorld) = 3 ∧
    (forceSync none 3 subscribedWorld).syncTimeSignals =
      subscribedWorld.syncTimeSignals ++ [3] ∧
    (forceSync none 3 subscribedWorld).channelOut =
      subscribedWorld.channelOut :=
  claim_C10_stopped_broadcast subscribedWorld
    ⟨0, true, true, [Op.subscribe "a" 0], rfl⟩ rfl "a" none 3

open SyncService in
/-- C5: on every reachable started transport, `stop()` cancels the ticker
(no interval handle, no active timer), closes the channel, removes both
window listeners, clears the registry and marks the transport stopped;
stopping the now-stopped transport changes nothing; and a subsequent
`start()` yields a functional transport (started, both listeners, a fresh
single ticker, channel open whenever the environment allows one) with no
subscriptions leaked from the prior session. -/
theorem claim_C5_stop_reverses_start (w : World) (hr : Reachable w)
    (hs : w.isStarted = true) :
    (stop w).refreshInterval = none ∧
    (stop w).activeTimers = [] ∧
    (stop w).channel = false ∧
    (stop w).storageListener = false ∧
    (stop w).customEventListener = false ∧
    (stop w).listeners = [] ∧
    (stop w).isStarted = false ∧
    stop (stop w) = stop w ∧
    (start (stop w)).isStarted = true ∧
    (start (stop w)).listeners = [] ∧
    (start (stop w)).storageListener = true ∧
    (start (stop w)).customEventListener = true ∧
    (start (stop w)).refreshInterval = some (stop w).nextTimerId ∧
    (start (stop w)).activeTimers = [(stop w).nextTimerId] ∧
    (start (stop w)).channel = (w.channelSupported && w.channelConstructs) := by
  obtain ⟨hlife, -⟩ := Reachable_inv hr
  obtain ⟨hsl, hcel, i, hri, hat⟩ := hlife.1 hs
  have hd : stop w = { w with
      refreshInterval := none,
      activeTimers := w.activeTimers.erase i, channel := false,
      storageListener := false, customEventListener := false,
      listeners := [], isStarted := false } := destroy_started hs hri
  have hat' : w.activeTimers.erase i = [] := by simp [hat]
  have hs2 : (stop w).isStarted = false := by rw [hd]
  have hch2 : (stop w).channel = false := by rw [hd]
  obtain ⟨f1, f2, f3, f4, f5, f6, f7⟩ := start_fields hs2 hch2
  refine ⟨?_, ?_, ?_, ?_, ?_, ?_, ?_, ?_, f1, ?_, f3, f4, f5, ?_, ?_⟩
  · rw [hd]
  · rw [hd]
    exact hat'
  · rw [hd]
  · rw [hd]
  · rw [hd]
  · rw [hd]
  · rw [hd]
  · exact destroy_not_started hs2
  · rw [f2, hd]
  · rw [f6, hd]
    simp [hat']
  · rw [f7, hd]

open SyncService in
/-- Witness for `claim_C5_stop_reverses_start` on a concrete started
transport carrying one subscription. -/
theorem claim_C5_stop_reverses_start_witness :
    (stop (run startedWorld [Op.subscribe "a" 0])).refreshInterval = none ∧
    (stop (run startedWorld [Op.subscribe "a" 0])).activeTimers = [] ∧
    (stop (run startedWorld [Op.subscribe "a" 0])).channel = false ∧
    (stop (run startedWorld [Op.subscribe "a" 0])).storageListener = false ∧
    (stop (run startedWorld [Op.subscribe "a" 0])).customEventListener = false ∧
    (stop (run startedWorld [Op.subscribe "a" 0])).listeners = [] ∧
    (stop (run startedWorld [Op.subscribe "a" 0])).isStarted = false ∧
    stop (stop (run startedWorld [Op.subscribe "a" 0])) =
      stop (run startedWorld [Op.subscribe "a" 0]) ∧
    (start (stop (run startedWorld [Op.subscribe "a" 0]))).isStarted = true ∧
    (start (stop (run startedWorld [Op.subscribe "a" 0]))).listeners = [] ∧
    (start (stop (run startedWorld [Op.subscribe "a" 0]))).storageListener = true ∧
    (start (stop (run startedWorld [Op.subscribe "a" 0]))).customEventListener
      = true ∧
    (start (stop (run startedWorld [Op.subscribe "a" 0]))).refreshInterval =
      some (stop (run startedWorld [Op.subscribe "a" 0])).nextTimerId ∧
    (start (stop (run startedWorld [Op.subscribe "a" 0]))).activeTimers =
      [(stop (run startedWorld [Op.subscribe "a" 0])).nextTimerId] ∧
    (start (stop (run startedWorld [Op.subscribe "a" 0]))).channel =
      ((run startedWorld [Op.subscribe "a" 0]).channelSupported &&
        (run startedWorld [Op.subscribe "a" 0]).channelConstructs) :=
  claim_C5_stop_reverses_start (run startedWorld [Op.subscribe "a" 0])
    ⟨0, true, true, [Op.start, Op.subscribe "a" 0], rfl⟩ rfl

open SyncService in
/-- The one dispatch a ticker firing performs while started: a
`data-refresh` broadcast, delivered to the wildcard bucket through the
custom event lane. -/
theorem broadcast_dataRefresh_fired {w : World}
    (hcel : w.customEventListener = true) (t : Nat) :
    (broadcast .dataRefresh none t w).firedCallbacks =
      w.firedCallbacks ++ notifyListenersList w.listeners "*" := by
  by_cases hch : w.channel = true <;>
    simp [broadcast, customEventHandler, handleSyncMessage, updateSyncTime,
      notifyListeners, hch, hcel]

open SyncService in
/-- C4: a second `start()` on a started transport logs the warning and
leaves the whole transport state unchanged — in particular there is still
exactly one active refresh ticker, so one interval boundary produces
exactly one `data-refresh` dispatch (one wildcard notification pass), not
two. -/
theorem claim_C4_start_idempotent (w : World) (hr : Reachable w)
    (hs : w.isStarted = true) (t : Nat) :
    start w =
      { w with consoleLog := w.consoleLog ++ [LogEntry.warnAlreadyStarted] } ∧
    (start w).activeTimers.length = 1 ∧
    (tick t (start w)).firedCallbacks =
      w.firedCallbacks ++ notifyListenersList w.listeners "*" := by
  obtain ⟨hlife, -⟩ := Reachable_inv hr
  obtain ⟨hsl, hcel, i, hri, hat⟩ := hlife.1 hs
  have h1 : start w =
      { w with consoleLog := w.consoleLog ++ [LogEntry.warnAlreadyStarted] } := by
    simp only [start]
    rw [if_pos hs]
  have hat2 : (start w).activeTimers = [i] := by
    rw [h1]
    exact hat
  have hcel2 : (start w).customEventListener = true := by
    rw [h1]
    exact hcel
  have hfired : (start w).firedCallbacks = w.firedCallbacks := by rw [h1]
  have hlist : (start w).listeners = w.listeners := by rw [h1]
  refine ⟨h1, ?_, ?_⟩
  · rw [hat2]
    rfl
  · simp only [tick]
    rw [hat2, List.foldl_cons, List.foldl_nil,
      broadcast_dataRefresh_fired hcel2 t, hfired, hlist]

open SyncService in
/-- Witness for `claim_C4_start_idempotent` on a concrete started
transport with a wildcard subscriber. -/
theorem claim_C4_start_idempotent_witness :
    start (run startedWorld [Op.subscribe "*" 7]) =
      { run startedWorld [Op.subscribe "*" 7] with
        consoleLog := (run startedWorld [Op.subscribe "*" 7]).consoleLog ++
          [LogEntry.warnAlreadyStarted] } ∧
    (start (run startedWorld [Op.subscribe "*" 7])).activeTimers.length = 1 ∧
    (tick 42 (start (run startedWorld [Op.subscribe "*" 7]))).firedCallbacks =
      (run startedWorld [Op.subscribe "*" 7]).firedCallbacks ++
        notifyListenersList (run startedWorld [Op.subscribe "*" 7]).listeners
          "*" :=
  claim_C4_start_idempotent (run startedWorld [Op.subscribe "*" 7])
    ⟨0, true, true, [Op.start, Op.subscribe "*" 7], rfl⟩ rfl 42

open SyncService in
/-- C7: for every subscription handle returned by `subscribe(key, callback)`
(modelled by `regRemove reg key callback` on the current registry), calling
the handle a second time is a no-op: the registry after two calls equals the
registry after one call.  The hypothesis is the well-formedness that the
JavaScript `Map`/`Set` pair guarantees automatically (unique keys,
duplicate-free buckets). -/
theorem claim_C7_revoke_idempotent (reg : Registry) (k : String) (cb : Nat)
    (h : RegistryWF reg) :
    regRemove (regRemove reg k cb) k cb = regRemove reg k cb := by
  induction reg with
  | nil => rfl
  | cons p rest ih =>
    rcases h with ⟨hkeys, hbuckets⟩
    simp only [List.map_cons, List.nodup_cons] at hkeys
    rcases hkeys with ⟨hnotmem, hrest⟩
    have hwfrest : RegistryWF rest :=
      ⟨hrest, fun q hq => hbuckets q (List.mem_cons_of_mem _ hq)⟩
    by_cases hk : p.1 = k
    · by_cases he : p.2.erase cb = []
      · simp only [regRemove, if_pos hk, if_pos he]
        apply regRemove_of_key_absent
        rw [← hk]
        exact hnotmem
      · have hnd : p.2.Nodup := (hbuckets p (List.mem_cons_self _ _)).1
        have hnm : cb ∉ p.2.erase cb := by
          intro hmem
          exact (hnd.mem_erase_iff.1 hmem).1 rfl
        simp only [regRemove, if_pos hk, if_neg he, List.erase_of_not_mem hnm,
          if_neg he]
    · simp only [regRemove, if_neg hk, ih hwfrest]

namespace SyncService

theorem count_if_nodup (l : List Nat) (hl : l.Nodup) (cb : Nat) :
    l.count cb = if cb ∈ l then 1 else 0 := by
  by_cases h : cb ∈ l
  · rw [if_pos h]
    exact List.count_eq_one_of_mem hl h
  · rw [if_neg h]
    exact List.count_eq_zero_of_not_mem h

theorem getBucket_mem {reg : Registry} {k : String} {l : List Nat}
    (h : getBucket reg k = some l) : (k, l) ∈ reg := by
  induction reg with
  | nil => simp [getBucket] at h
  | cons p rest ih =>
    by_cases hk : p.1 = k
    · simp only [getBucket, if_pos hk, Option.some.injEq] at h
      have hp : p = (k, l) := by rw [← hk, ← h]
      exact List.mem_cons.2 (Or.inl hp.symm)
    · simp only [getBucket, if_neg hk] at h
      exact List.mem_cons_of_mem _ (ih h)

theorem bucketOf_nodup {reg : Registry} (h : RegistryWF reg) (k : String) :
    (bucketOf reg k).Nodup := by
  unfold bucketOf
  rcases hg : getBucket reg k with _ | l
  · simp
  · simpa using (h.2 _ (getBucket_mem hg)).1

theorem handleSyncMessage_fired (t : Nat) (msg : SyncMessage) (w : World) :
    (handleSyncMessage t msg w).firedCallbacks =
      w.firedCallbacks ++ dispatchList w.listeners msg := by
  rcases msg with ⟨ty, k, ts⟩
  cases ty <;> rcases k with _ | k <;>
    simp [handleSyncMessage, dispatchList, updateSyncTime, notifyListeners] <;>
    split_ifs <;>
    simp

theorem lastSync_start (w : World) :
    (start w).lastSyncTime = w.lastSyncTime := by
  simp only [start, startAutoRefresh, setupStorageListener,
    initializeBroadcastChannel]
  split_ifs <;> rfl

theorem lastSync_destroy (w : World) :
    (destroy w).lastSyncTime = w.lastSyncTime := by
  rcases hri : w.refreshInterval with _ | i <;>
    simp only [destroy, hri] <;> split_ifs <;> rfl

theorem lastSync_handleSyncMessage (t : Nat) (msg : SyncMessage) (w : World) :
    (handleSyncMessage t msg w).lastSyncTime = t := by
  rcases msg with ⟨ty, k, ts⟩
  cases ty <;> cases k <;>
    simp [handleSyncMessage, updateSyncTime, notifyListeners] <;>
    split_ifs <;>
    simp [updateSyncTime, notifyListeners]

theorem lastSync_broadcast (ty : SyncEventType) (k : Option String) (t : Nat)
    (w : World) : (broadcast ty k t w).lastSyncTime = t := rfl

theorem lastSync_customEventHandler (t : Nat) (d : EventDetail) (w : World) :
    (customEventHandler t d w).lastSyncTime = w.lastSyncTime ∨
      (customEventHandler t d w).lastSyncTime = t := by
  by_cases h : w.customEventListener = true
  · cases d with
    | typed msg =>
      right
      simp only [customEventHandler, h, if_true]
      exact lastSync_handleSyncMessage t msg w
    | keyed k =>
      by_cases hke : k = ""
      · left
        simp [customEventHandler, h, hke]
      · right
        simp [customEventHandler, h, hke, updateSyncTime]
    | other =>
      left
      simp [customEventHandler, h]
  · left
    simp [customEventHandler, h]

theorem lastSync_refresh_foldl (t : Nat) (l : List Nat) (w : World) :
    (l.foldl (fun acc _ => broadcast .dataRefresh none t acc) w).lastSyncTime
        = w.lastSyncTime ∨
      (l.foldl (fun acc _ => broadcast .dataRefresh none t acc) w).lastSyncTime
        = t := by
  induction l generalizing w with
  | nil => exact Or.inl rfl
  | cons a l ih =>
    rw [List.foldl_cons]
    rcases ih (broadcast .dataRefresh none t w) with h | h
    · right
      rw [h]
      exact lastSync_broadcast ..
    · exact Or.inr h

theorem lastSync_step (op : Op) (w : World) :
    (step op w).lastSyncTime = w.lastSyncTime ∨
      Op.time op = some ((step op w).lastSyncTime) := by
  cases op with
  | start => exact Or.inl (lastSync_start w)
  | stop => exact Or.inl (lastSync_destroy w)
  | subscribe k cb => exact Or.inl rfl
  | revoke k cb => exact Or.inl rfl
  | notifyUpdate k t => exact Or.inr rfl
  | forceSync k t => exact Or.inr rfl
  | tick t =>
    rcases lastSync_refresh_foldl t w.activeTimers w with h | h
    · exact Or.inl h
    · exact Or.inr (by simp [Op.time, step, tick, h])
  | recvChannel msg t =>
    by_cases h : w.channel = true
    · exact Or.inr (by
        simp [Op.time, step, recvChannelMessage, h, lastSync_handleSyncMessage])
    · exact Or.inl (by simp [step, recvChannelMessage, h])
  | storageEvt k t =>
    by_cases h : w.storageListener = true
    · cases k with
      | some key =>
        by_cases hke : key = ""
        · exact Or.inl (by simp [step, storageEvent, h, hke])
        · exact Or.inr (by
            simp [Op.time, step, storageEvent, h, hke, updateSyncTime])
      | none => exact Or.inl (by simp [step, storageEvent, h])
    · exact Or.inl (by simp [step, storageEvent, h])
  | customEvt d t =>
    rcases lastSync_customEventHandler t d w with h | h
    · exact Or.inl h
    · exact Or.inr (by simp [Op.time, step, h])

theorem lastSync_run_mem (ops : List Op) (w : World) :
    (run w ops).lastSyncTime ∈ w.lastSyncTime :: ops.filterMap Op.time := by
  induction ops generalizing w with
  | nil => simp [run]
  | cons op ops ih =>
    rw [run_cons]
    have hmem := ih (step op w)
    rcases lastSync_step op w with h | h
    · rcases hop : Op.time op with _ | v
      · simp only [List.filterMap_cons, hop]
        rw [h] at hmem
        exact hmem
      · simp only [List.filterMap_cons, hop]
        rw [h] at hmem
        rcases List.mem_cons.1 hmem with h2 | h2
        · exact List.mem_cons.2 (Or.inl h2)
        · exact List.mem_cons.2 (Or.inr (List.mem_cons.2 (Or.inr h2)))
    · simp only [List.filterMap_cons, h]
      exact List.mem_cons.2 (Or.inr hmem)

theorem lastSync_run_ge (ops : List Op) (w : World)
    (hsort : List.Sorted (· ≤ ·) (w.lastSyncTime :: ops.filterMap Op.time)) :
    w.lastSyncTime ≤ (run w ops).lastSyncTime := by
  rcases List.mem_cons.1 (lastSync_run_mem ops w) with h | h
  · exact le_of_eq h.symm
  · exact (List.sorted_cons.1 hsort).1 _ h

end SyncService

open SyncService in
/-- C3: along every trace of operations on one transport whose observed
`Date.now()` readings are non-decreasing (and start no earlier than the
construction-time reading `t0`), `getLastSyncTime()` is non-decreasing: the
value read after a prefix of the trace is at most the value read after the
whole trace. -/
theorem claim_C3_lastSyncTime_monotone (t0 : Nat) (cs cc : Bool)
    (l₁ l₂ : List Op)
    (hsort : List.Sorted (· ≤ ·) (t0 :: (l₁ ++ l₂).filterMap Op.time)) :
    getLastSyncTime (run (initialWorld t0 cs cc) l₁) ≤
      getLastSyncTime (run (initialWorld t0 cs cc) (l₁ ++ l₂)) := by
  rw [run_append]
  show (run (initialWorld t0 cs cc) l₁).lastSyncTime ≤ _
  apply lastSync_run_ge
  have hmem : (run (initialWorld t0 cs cc) l₁).lastSyncTime ∈
      t0 :: l₁.filterMap Op.time := lastSync_run_mem l₁ (initialWorld t0 cs cc)
  have hsort2 : List.Pairwise (· ≤ ·)
      ((t0 :: l₁.filterMap Op.time) ++ l₂.filterMap Op.time) := by
    simpa [List.Sorted, List.filterMap_append] using hsort
  obtain ⟨hp1, hp2, hcross⟩ := List.pairwise_append.1 hsort2
  exact List.sorted_cons.2 ⟨fun b hb => hcross _ hmem _ hb, hp2⟩

open SyncService in
/-- Witness for `claim_C3_lastSyncTime_monotone` on a concrete trace. -/
theorem claim_C3_lastSyncTime_monotone_witness :
    List.Sorted (· ≤ ·) (1 :: ([Op.subscribe "a" 0, Op.notifyUpdate "a" 3]
      ++ [Op.forceSync none 5]).filterMap Op.time) ∧
    getLastSyncTime (run (initialWorld 1 true true)
        [Op.subscribe "a" 0, Op.notifyUpdate "a" 3]) ≤
      getLastSyncTime (run (initialWorld 1 true true)
        ([Op.subscribe "a" 0, Op.notifyUpdate "a" 3] ++
          [Op.forceSync none 5])) :=
  ⟨by decide, claim_C3_lastSyncTime_monotone 1 true true
    [Op.subscribe "a" 0, Op.notifyUpdate "a" 3] [Op.forceSync none 5]
    (by decide)⟩

open SyncService in
/-- Witness for `claim_C7_revoke_idempotent` at a concrete registry. -/
theorem claim_C7_revoke_idempotent_witness :
    regRemove (regRemove [("a", [0, 1]), ("*", [2])] "a" 0) "a" 0 =
      regRemove [("a", [0, 1]), ("*", [2])] "a" 0 :=
  claim_C7_revoke_idempotent [("a", [0, 1]), ("*", [2])] "a" 0 (by decide)

open SyncService in
/-- C1 as frozen is refuted by the code: (a) a callback registered under
both the message's key and the wildcard is invoked twice, not once, by a
keyed `storage-update`; (b) a `storage-update` carrying no key invokes no
callback at all, not the wildcard callbacks. -/
theorem claim_C1_counterexample :
    dispatchList [("a", [0]), ("*", [0])]
      ⟨SyncEventType.storageUpdate, some "a", 0⟩ = [0, 0] ∧
    (dispatchList [("a", [0]), ("*", [0])]
      ⟨SyncEventType.storageUpdate, some "a", 0⟩).count 0 ≠ 1 ∧
    dispatchList [("*", [5])] ⟨SyncEventType.storageUpdate, none, 0⟩ = [] ∧
    bucketOf [("*", [5])] "*" = [5] ∧
    dispatchList [("", [3]), ("*", [5])]
      ⟨SyncEventType.storageUpdate, some "", 0⟩ = [] ∧
    dispatchList [("", [3]), ("*", [5])]
      ⟨SyncEventType.forceSyncEvt, some "", 0⟩ = [5] := by
  decide

open SyncService in
/-- C1 (amended): for every dispatched message, each callback is invoked
exactly `expectedCount` times — once per bucket it occupies among the
message key's bucket and (when the key is not the wildcard) the wildcard
bucket for a `storage-update`/`force-sync` carrying a truthy key (present
and nonempty, since the `if (message.key)` guard treats `""` as absent);
never for a `storage-update` without a truthy key; exactly once for each
wildcard-bucket member for `data-refresh` and for `force-sync` without a
truthy key.  In particular a wildcard subscriber is not double-invoked
when the message's key equals `'*'`. -/
theorem claim_C1_amended (reg : Registry) (hwf : RegistryWF reg)
    (msg : SyncMessage) (cb : Nat) :
    (dispatchList reg msg).count cb = expectedCount reg msg cb := by
  have hkey : ∀ k : String, (notifyListenersList reg k).count cb =
      (if cb ∈ bucketOf reg k then 1 else 0) +
        (if k ≠ "*" ∧ cb ∈ bucketOf reg "*" then 1 else 0) := by
    intro k
    by_cases hk : k = "*"
    · subst hk
      simp [notifyListenersList, count_if_nodup _ (bucketOf_nodup hwf _)]
    · simp [notifyListenersList, hk, List.count_append,
        count_if_nodup _ (bucketOf_nodup hwf _)]
  rcases msg with ⟨ty, k, ts⟩
  cases ty with
  | storageUpdate =>
    rcases k with _ | k
    · simp [dispatchList, expectedCount]
    · by_cases hke : k = "" <;>
        simp [dispatchList, expectedCount, hkey, hke]
  | dataRefresh =>
    rcases k with _ | k <;> simp [dispatchList, expectedCount, hkey]
  | forceSyncEvt =>
    rcases k with _ | k
    · simp [dispatchList, expectedCount, hkey]
    · by_cases hke : k = "" <;>
        simp [dispatchList, expectedCount, hkey, hke]

open SyncService in
/-- Witness for `claim_C1_amended`: callback `1` sits in both the `"a"`
bucket and the wildcard bucket and is counted twice. -/
theorem claim_C1_amended_witness :
    (dispatchList [("a", [0, 1]), ("*", [1, 2])]
      ⟨SyncEventType.storageUpdate, some "a", 0⟩).count 1 =
      expectedCount [("a", [0, 1]), ("*", [1, 2])]
        ⟨SyncEventType.storageUpdate, some "a", 0⟩ 1 :=
  claim_C1_amended [("a", [0, 1]), ("*", [1, 2])] (by decide)
    ⟨SyncEventType.storageUpdate, some "a", 0⟩ 1

open JsSetModel in
/-- C2 is the specification's intent but the code lacks the snapshot:
`notifyListeners` iterates the live `Set` via `forEach`.  At the failing
input — bucket `{0}` where callback `0` subscribes callback `1` under the
same key — live iteration invokes the newly added `1` in the same pass
(`[0, 1]`), while snapshot semantics invokes `[0]`; dually, when callback
`0` unsubscribes the not-yet-visited `1`, live iteration skips it (`[0]`)
while the snapshot pass would invoke `[0, 1]`. -/
theorem claim_C2_live_iteration :
    forEachLive (fun c => if c = 0 then CbEffect.addCb 1 else CbEffect.pureCb)
      4 0 [some 0] = [0, 1] ∧
    forEachSnapshot [some 0] = [0] ∧
    forEachLive (fun c => if c = 0 then CbEffect.delCb 1 else CbEffect.pureCb)
      4 0 [some 0, some 1] = [0] ∧
    forEachSnapshot [some 0, some 1] = [0, 1] := by
  decide

open UseSyncedData in
/-- C8: when the fetch rejects while the accessor is still active (mounted
at start and at resolution), the rejection is logged, the loading flag is
cleared, the previously held data is retained unchanged, and — `doFetch`
returning a state rather than raising — no error propagates to the
caller. -/
theorem claim_C8_fetch_rejection (T : Type) (st : HookState T) :
    (doFetch true true st (Except.error ())).data = st.data ∧
    (doFetch true true st (Except.error ())).loading = false ∧
    (doFetch true true st (Except.error ())).errorsLogged =
      st.errorsLogged + 1 := by
  by_cases h : st.data.isNone = true <;> simp [doFetch, doFetchResolve, h]

open UseSyncedData in
/-- C9: a fetch result or rejection that settles after the accessor's
cleanup ran (activity flag cleared) is silently discarded: no state write
occurs — the state after the resolution phase is exactly the state before
it. -/
theorem claim_C9_unmounted_discard (T : Type) (st : HookState T)
    (result : Except Unit T) : doFetchResolve false st result = st := by
  cases result <;> simp [doFetchResolve]
